import Mathlib

/-!
# Verification of the n8n-MCP multi-session HTTP transport manager

This file is a shallow embedding of the session-registry core of
`SingleSessionHTTPServer` (file `http-server-single-session.ts`): the four
registry maps (`transports`, `servers`, `sessionMetadata`, `sessionContexts`),
the per-session context-switch lock table, and the operations
`getActiveSessionCount`, `canCreateSession`, `isValidSessionId`,
`updateSessionAccess`, `performContextSwitch`, `switchSessionContext`,
`removeSession`, `cleanupExpiredSessions`, `getSessionMetrics` and
`handleRequest`.

JavaScript object maps are embedded as association lists with JS-object
update semantics (`aset` overwrites in place or appends, `aerase` deletes,
`alookup` finds); times are natural-number milliseconds; the random
`uuidv4()` value and the current time are explicit inputs of each operation.
The SDK transport (external to the repository) is modelled by a single flag
recording whether its `close()` call rejects, which is the only behaviour of
it the registry code observes.
-/

/-- Session identifiers are opaque strings (`mcp-session-id` header values,
generated UUIDs, or composite multi-tenant identifiers). -/
abbrev SessionId := String

/-- The `metadata` sub-object of an instance context
(`{ userAgent, ip }`, added only when one of the two is present). -/
structure CtxMetadata where
  userAgent : Option String
  ip : Option String
  deriving DecidableEq, Repr

/-- `InstanceContext` from `types/instance-context`: which upstream n8n
instance and credentials a session (or request) should use.  All fields are
optional, mirroring the header-driven construction in the source.
Structural equality of this type models the `JSON.stringify` comparison the
source performs (all contexts are built by the same constructor, so field
order is fixed and `stringify` equality coincides with field-wise equality
with absent/`undefined` fields identified). -/
structure InstanceContext where
  n8nApiUrl : Option String
  n8nApiKey : Option String
  instanceId : Option String
  sessionId : Option String
  metadata : Option CtxMetadata
  deriving DecidableEq, Repr

/-- Modelled from the spec: the `StreamableHTTPServerTransport` owned by a
session lives in the MCP SDK, outside this repository.  The registry code
only ever calls `close()` on it, which is "best-effort" per the spec (it can
reject); the flag records whether this transport's `close()` call throws. -/
structure Transport where
  closeFails : Bool
  deriving DecidableEq, Repr

/-- Modelled from the spec: the per-session `N8NDocumentationMCPServer`
protocol handler lives outside this file's source; the registry only stores
it and overwrites its `instanceContext` field during a context switch, so it
is modelled by that single field. -/
structure MCPServer where
  instanceContext : Option InstanceContext
  deriving DecidableEq, Repr

/-- One entry of `this.sessionMetadata`: `{ lastAccess, createdAt }`,
as milliseconds since the epoch. -/
structure SessionMeta where
  lastAccess : Nat
  createdAt : Nat
  deriving DecidableEq, Repr

/-! ## JavaScript object maps as association lists -/

/-- Lookup (`m[k]`): first entry with the given key. -/
def alookup (m : List (SessionId × α)) (k : SessionId) : Option α :=
  match m with
  | [] => none
  | (k', v) :: rest => if k' = k then some v else alookup rest k

/-- Assignment (`m[k] = v`): overwrite the entry in place if the key is
present, append a fresh entry otherwise. -/
def aset (m : List (SessionId × α)) (k : SessionId) (v : α) :
    List (SessionId × α) :=
  match m with
  | [] => [(k, v)]
  | (k', v') :: rest =>
      if k' = k then (k, v) :: rest else (k', v') :: aset rest k v

/-- Deletion (`delete m[k]`): drop every entry with the given key (on
well-formed maps there is at most one). -/
def aerase (m : List (SessionId × α)) (k : SessionId) :
    List (SessionId × α) :=
  match m with
  | [] => []
  | (k', v') :: rest =>
      if k' = k then aerase rest k else (k', v') :: aerase rest k

/-! ## The registry state and its operations -/

/-- The mutable state of `SingleSessionHTTPServer`: the four registry maps,
all keyed by session id, plus the `contextSwitchLocks` table (a
`Map<string, Promise<void>>`, of which routing only ever observes which keys
are present, so it is embedded as the list of locked session ids). -/
structure ServerState where
  transports : List (SessionId × Transport)
  servers : List (SessionId × MCPServer)
  sessionMetadata : List (SessionId × SessionMeta)
  sessionContexts : List (SessionId × Option InstanceContext)
  contextSwitchLocks : List SessionId
  deriving DecidableEq, Repr

/-- The freshly constructed server: all maps empty. -/
def initialState : ServerState :=
  { transports := []
    servers := []
    sessionMetadata := []
    sessionContexts := []
    contextSwitchLocks := [] }

/-- `const MAX_SESSIONS = 100`. -/
def MAX_SESSIONS : Nat := 100

/-- `const SESSION_CLEANUP_INTERVAL = 5 * 60 * 1000` (milliseconds). -/
def SESSION_CLEANUP_INTERVAL : Nat := 5 * 60 * 1000

/-- `this.sessionTimeout = 30 * 60 * 1000` (milliseconds). -/
def sessionTimeout : Nat := 30 * 60 * 1000

/-- `getActiveSessionCount`: `Object.keys(this.transports).length`. -/
def getActiveSessionCount (s : ServerState) : Nat :=
  s.transports.length

/-- `canCreateSession`: `getActiveSessionCount() < MAX_SESSIONS`. -/
def canCreateSession (s : ServerState) : Bool :=
  getActiveSessionCount s < MAX_SESSIONS

/-- `isValidSessionId`: `Boolean(sessionId && sessionId.length > 0)` —
any non-empty string is accepted. -/
def isValidSessionId (sessionId : String) : Bool :=
  sessionId.length > 0

/-- Truthiness of an optional string header value (JavaScript treats a
missing header and the empty string alike as falsy). -/
def strTruthy (v : Option String) : Bool :=
  match v with
  | some s => s.length > 0
  | none => false

/-- `updateSessionAccess`: if metadata for the session exists, set its
`lastAccess` to the current time. -/
def updateSessionAccess (s : ServerState) (sessionId : SessionId)
    (now : Nat) : ServerState :=
  match alookup s.sessionMetadata sessionId with
  | some m =>
      { s with sessionMetadata := aset s.sessionMetadata sessionId { m with lastAccess := now } }
  | none => s

/-- The context the source reads as
`const existingContext = this.sessionContexts[sessionId]`: `undefined` both
when the key is absent and when the stored value is `undefined`. -/
def effectiveContext (s : ServerState) (sessionId : SessionId) :
    Option InstanceContext :=
  (alookup s.sessionContexts sessionId).bind id

/-- `performContextSwitch`: compare the requested context with the stored one
by `JSON.stringify` (structural) equality; if they differ, store the new
context wholesale and overwrite the live handler's `instanceContext`
reference when a handler exists.  No partial-field merge ever happens. -/
def performContextSwitch (s : ServerState) (sessionId : SessionId)
    (newContext : InstanceContext) : ServerState :=
  if effectiveContext s sessionId = some newContext then s
  else
    let s1 := { s with sessionContexts := aset s.sessionContexts sessionId (some newContext) }
    match alookup s1.servers sessionId with
    | some srv =>
        { s1 with servers := aset s1.servers sessionId { srv with instanceContext := some newContext } }
    | none => s1

/-- `switchSessionContext`: if a switch is already in flight for this session
(`contextSwitchLocks` has the key), await it and return — the caller's own
context is never applied.  Otherwise perform the switch; the lock is set
before awaiting and deleted in the `finally`, so its net effect on the lock
table within one call is nil. -/
def switchSessionContext (s : ServerState) (sessionId : SessionId)
    (newContext : InstanceContext) : ServerState :=
  if sessionId ∈ s.contextSwitchLocks then s
  else performContextSwitch s sessionId newContext

/-- `removeSession`: inside a `try`, close the transport if present (the
`await close()` can throw, jumping to the `catch`, which only logs — in that
case none of the `delete` statements run), then delete the session from all
four maps.  The `reason` argument is only logged. -/
def removeSession (s : ServerState) (sessionId : SessionId)
    (_reason : String) : ServerState :=
  match alookup s.transports sessionId with
  | some t =>
      if t.closeFails then
        s
      else
        { s with
          transports := aerase s.transports sessionId
          servers := aerase s.servers sessionId
          sessionMetadata := aerase s.sessionMetadata sessionId
          sessionContexts := aerase s.sessionContexts sessionId }
  | none =>
      { s with
        servers := aerase s.servers sessionId
        sessionMetadata := aerase s.sessionMetadata sessionId
        sessionContexts := aerase s.sessionContexts sessionId }

/-- The list of session ids the sweeper collects as expired:
metadata entries with `now - lastAccess > sessionTimeout`. -/
def expiredIds (s : ServerState) (now : Nat) : List SessionId :=
  (s.sessionMetadata.filter
    (fun e => decide (now - e.2.lastAccess > sessionTimeout))).map Prod.fst

/-- `cleanupExpiredSessions`: collect expired ids from the metadata map, drop
orphaned context entries (contexts whose session id has no metadata), then
remove each expired session with reason `"expired"`. -/
def cleanupExpiredSessions (s : ServerState) (now : Nat) : ServerState :=
  let expired := expiredIds s now
  let s1 := { s with sessionContexts := s.sessionContexts.filter (fun e => (alookup s.sessionMetadata e.1).isSome) }
  expired.foldl (fun st sid => removeSession st sid "expired") s1

/-- The record `getSessionMetrics` returns. -/
structure SessionMetrics where
  totalSessions : Nat
  activeSessions : Nat
  expiredSessions : Nat
  lastCleanup : Nat
  deriving DecidableEq, Repr

/-- `getSessionMetrics`: counts the metadata entries (`totalSessions`), the
live transports (`activeSessions`), the metadata entries whose idle time
exceeds the timeout (`expiredSessions`), and returns `new Date()` — the
current time — as `lastCleanup`. -/
def getSessionMetrics (s : ServerState) (now : Nat) : SessionMetrics :=
  { totalSessions := s.sessionMetadata.length
    activeSessions := getActiveSessionCount s
    expiredSessions :=
      (s.sessionMetadata.filter
        (fun e => decide (now - e.2.lastAccess > sessionTimeout))).length
    lastCleanup := now }

/-! ## The request router (`handleRequest`) -/

/-- The environment configuration `handleRequest` reads:
`ENABLE_MULTI_TENANT === 'true'` and
`MULTI_TENANT_SESSION_STRATEGY || 'instance'` (already defaulted). -/
structure EnvConfig where
  enableMultiTenant : Bool
  sessionStrategy : String
  deriving DecidableEq, Repr

/-- The parts of an inbound HTTP request that `handleRequest` inspects:
the `mcp-session-id` header, whether the body `isInitializeRequest`, and the
instance context extracted from the multi-tenant headers. -/
structure HttpRequest where
  headerSessionId : Option String
  isInitialize : Bool
  instanceContext : Option InstanceContext
  deriving DecidableEq, Repr

/-- Modelled from the spec: the 8-character configuration hash is
`createHash('sha256')` over `{url, instanceId}` from Node's crypto library
(external to the repository); it is modelled as an unspecified deterministic
function of the same two inputs. -/
def configHash (url instanceId : Option String) : String :=
  (toString (hash (url, instanceId))).take 8

/-- The session id chosen for an initialize request: in multi-tenant
per-instance mode (with a truthy `instanceContext?.instanceId`) the composite
`instance-{instanceId}-{configHash}-{uuid}`; otherwise the client-supplied
header id if truthy, else the fresh `uuidv4()` value. -/
def sessionIdToUse (cfg : EnvConfig) (headerSessionId : Option String)
    (ctx : Option InstanceContext) (uuid : String) : SessionId :=
  if cfg.enableMultiTenant && (cfg.sessionStrategy == "instance")
      && strTruthy (ctx.bind (fun c => c.instanceId)) then
    match ctx with
    | some c =>
        "instance-" ++ c.instanceId.getD "" ++ "-"
          ++ configHash c.n8nApiUrl c.instanceId ++ "-" ++ uuid
    | none => uuid
  else
    match headerSessionId with
    | some sid => if sid.length > 0 then sid else uuid
    | none => uuid

/-- The outcome `handleRequest` produces for the claims' purposes: the 429
capacity rejection, a created session, a continued session, or a 400
rejection with the error message the source selects. -/
inductive HandleResult where
  | capacityError
  | created (sessionId : SessionId)
  | continued (sessionId : SessionId)
  | badRequest (message : String)
  deriving DecidableEq, Repr

/-- The HTTP status the source sends with each outcome. -/
def HandleResult.status : HandleResult → Nat
  | .capacityError => 429
  | .created _ => 200
  | .continued _ => 200
  | .badRequest _ => 400

/-- `handleRequest`: the three-way branch of the router.  An initialize
request is admission-checked against `canCreateSession` (429 on failure,
with no state change); on success a transport/server pair is created and the
`onsessioninitialized` callback stores all four registry entries under the
chosen id.  A non-initialize request with a truthy session id that is
present in `transports` re-uses that transport, optionally switching the
context in shared multi-tenant mode, and touches `lastAccess`.  Everything
else is rejected with a 400 and the state is untouched.  The fresh
`uuidv4()` value, the current time and the (externally determined) eventual
close behaviour of the new transport are explicit inputs. -/
def handleRequest (cfg : EnvConfig) (now : Nat) (uuid : String)
    (closeFails : Bool) (r : HttpRequest) (s : ServerState) :
    HandleResult × ServerState :=
  if r.isInitialize then
    if !canCreateSession s then
      (.capacityError, s)
    else
      let sid := sessionIdToUse cfg r.headerSessionId r.instanceContext uuid
      (.created sid,
        { s with
          transports := aset s.transports sid { closeFails := closeFails }
          servers := aset s.servers sid { instanceContext := r.instanceContext }
          sessionMetadata := aset s.sessionMetadata sid
            { lastAccess := now, createdAt := now }
          sessionContexts := aset s.sessionContexts sid r.instanceContext })
  else if strTruthy r.headerSessionId
      && (alookup s.transports (r.headerSessionId.getD "")).isSome then
    let sid := r.headerSessionId.getD ""
    if !isValidSessionId sid then
      (.badRequest "Invalid session ID format", s)
    else
      let s1 :=
        if cfg.enableMultiTenant && (cfg.sessionStrategy == "shared") then
          match r.instanceContext with
          | some ctx => switchSessionContext s sid ctx
          | none => s
        else s
      (.continued sid, updateSessionAccess s1 sid now)
  else
    let msg :=
      if strTruthy r.headerSessionId
          && !isValidSessionId (r.headerSessionId.getD "") then
        "Bad Request: Invalid session ID format"
      else if strTruthy r.headerSessionId
          && (alookup s.transports (r.headerSessionId.getD "")).isNone then
        "Bad Request: Session not found or expired"
      else
        "Bad Request: No valid session ID provided and not an initialize request"
    (.badRequest msg, s)

/-! ## Trace semantics -/

/-- The registry-mutating events of the server's life: an HTTP request routed
through `handleRequest`, a sweeper tick (`cleanupExpiredSessions`), and a
direct removal (the transport `onclose`/`onerror` callbacks and the
`DELETE /mcp` endpoint all call `removeSession`). -/
inductive Event where
  | request (now : Nat) (uuid : String) (closeFails : Bool) (r : HttpRequest)
  | sweep (now : Nat)
  | terminate (sessionId : SessionId) (reason : String)
  deriving Repr

/-- One event's effect on the registry state. -/
def stepEvent (cfg : EnvConfig) (s : ServerState) (e : Event) : ServerState :=
  match e with
  | .request now uuid closeFails r => (handleRequest cfg now uuid closeFails r s).2
  | .sweep now => cleanupExpiredSessions s now
  | .terminate sid reason => removeSession s sid reason

/-- Run a sequence of events from the freshly constructed server. -/
def runEvents (cfg : EnvConfig) (es : List Event) : ServerState :=
  es.foldl (stepEvent cfg) initialState

/-! ## Well-formedness: the registry maps have pairwise-distinct keys -/

/-- All four registry maps have pairwise-distinct session-id keys. -/
def WF (s : ServerState) : Prop :=
  (s.transports.map Prod.fst).Nodup ∧ (s.servers.map Prod.fst).Nodup ∧
  (s.sessionMetadata.map Prod.fst).Nodup ∧
  (s.sessionContexts.map Prod.fst).Nodup

/-- Where one `switchSessionContext` call stands between the atomic steps of
the event loop: not yet started; suspended awaiting another call's in-flight
switch promise; suspended awaiting its own (already performed) switch, lock
held; finished. -/
inductive SwitchPC where
  | start
  | waitingLock
  | waitingOwn
  | done
  deriving DecidableEq, Repr

/-- One in-flight `switchSessionContext` call: its program counter and the
context it wants to install. -/
structure SwitchThread where
  pc : SwitchPC
  ctx : InstanceContext
  deriving DecidableEq, Repr

/-- One atomic event-loop turn of a `switchSessionContext` call for session
`sid`.  From `start`, the lock check and — when the lock is free — the whole
synchronous body of `performContextSwitch` plus the lock insertion happen in
one turn (the `async` body contains no `await`); the `await` then suspends
the call.  Resuming from its own completed promise deletes the lock
(`finally`); a call that found a lock in place resumes only once the lock is
gone and installs nothing. -/
def threadStep (sid : SessionId) (s : ServerState) (t : SwitchThread) :
    ServerState × SwitchThread :=
  match t.pc with
  | .start =>
      if sid ∈ s.contextSwitchLocks then
        (s, { t with pc := .waitingLock })
      else
        let s1 := performContextSwitch s sid t.ctx
        ({ s1 with contextSwitchLocks := sid :: s1.contextSwitchLocks },
          { t with pc := .waitingOwn })
  | .waitingOwn =>
      ({ s with contextSwitchLocks :=
          s.contextSwitchLocks.filter (fun x => decide (x ≠ sid)) },
        { t with pc := .done })
  | .waitingLock =>
      if sid ∈ s.contextSwitchLocks then (s, t)
      else (s, { t with pc := .done })
  | .done => (s, t)

/-- Two concurrent `switchSessionContext` calls over one shared registry. -/
structure SwitchSys where
  st : ServerState
  t1 : SwitchThread
  t2 : SwitchThread
  deriving DecidableEq, Repr

/-- Scheduler choice: `true` runs the first call's next turn. -/
def sysStep (sid : SessionId) (c : SwitchSys) (choice : Bool) : SwitchSys :=
  if choice then
    { c with st := (threadStep sid c.st c.t1).1
             t1 := (threadStep sid c.st c.t1).2 }
  else
    { c with st := (threadStep sid c.st c.t2).1
             t2 := (threadStep sid c.st c.t2).2 }

/-- Run an arbitrary interleaving of the two calls. -/
def sysRun (sid : SessionId) (c : SwitchSys) (sched : List Bool) : SwitchSys :=
  sched.foldl (sysStep sid) c

/-- Inductive invariant of the two-call system, stated for one call at
program counter `p` wanting context `X` against the other call at `q`
wanting `Y`: the lock is held exactly while some call sits between its
switch and its `finally`; at most one call is in that window; before anyone
moves the stored context is the initial one `c0`, and as soon as anyone has
moved it is exactly one of the two requested contexts — never a mixture. -/
def SwitchInvAux (sid : SessionId) (c0 : Option InstanceContext)
    (X Y : InstanceContext) (s : ServerState) (p q : SwitchPC) : Prop :=
  (sid ∈ s.contextSwitchLocks ↔
    (p = .waitingOwn ∨ q = .waitingOwn)) ∧
  ¬(p = .waitingOwn ∧ q = .waitingOwn) ∧
  (p = .start ∧ q = .start → effectiveContext s sid = c0) ∧
  ((p ≠ .start ∨ q ≠ .start) →
    effectiveContext s sid = some X ∨ effectiveContext s sid = some Y)

/-- The two-call invariant: each call still wants its original context, and
the symmetric core holds. -/
def SwitchInv (sid : SessionId) (c0 : Option InstanceContext)
    (A B : InstanceContext) (c : SwitchSys) : Prop :=
  c.t1.ctx = A ∧ c.t2.ctx = B ∧
  SwitchInvAux sid c0 A B c.st c.t1.pc c.t2.pc

/-! ## Concrete states used by closed witnesses and counterexamples -/

/-- Single-tenant configuration (`ENABLE_MULTI_TENANT` unset, default
strategy). -/
def cfgSingle : EnvConfig :=
  { enableMultiTenant := false, sessionStrategy := "instance" }

/-- A bare initialize request. -/
def reqInit : HttpRequest :=
  { headerSessionId := none, isInitialize := true, instanceContext := none }

/-- A registry already holding `MAX_SESSIONS` live transports. -/
def fullState : ServerState :=
  { transports :=
      (List.range MAX_SESSIONS).map (fun i => (toString i, { closeFails := false }))
    servers := []
    sessionMetadata := []
    sessionContexts := []
    contextSwitchLocks := [] }

/-- One fully populated session `"a"` whose transport's `close()` throws. -/
def closeFailState : ServerState :=
  { transports := [("a", { closeFails := true })]
    servers := [("a", { instanceContext := none })]
    sessionMetadata := [("a", { lastAccess := 0, createdAt := 0 })]
    sessionContexts := [("a", none)]
    contextSwitchLocks := [] }

/-- One fully populated session `"a"` whose transport closes cleanly. -/
def expState : ServerState :=
  { transports := [("a", { closeFails := false })]
    servers := [("a", { instanceContext := none })]
    sessionMetadata := [("a", { lastAccess := 0, createdAt := 0 })]
    sessionContexts := [("a", none)]
    contextSwitchLocks := [] }

/-- Tenant A's upstream context. -/
def ctxA : InstanceContext :=
  { n8nApiUrl := some "https://n8n-a.example.com"
    n8nApiKey := some "key-a"
    instanceId := some "tenant-a"
    sessionId := none
    metadata := none }

/-- Tenant B's upstream context. -/
def ctxB : InstanceContext :=
  { n8nApiUrl := some "https://n8n-b.example.com"
    n8nApiKey := some "key-b"
    instanceId := some "tenant-b"
    sessionId := none
    metadata := none }

/-- A shared-mode session `"s1"` currently bound to tenant A. -/
def swState : ServerState :=
  { transports := [("s1", { closeFails := false })]
    servers := [("s1", { instanceContext := some ctxA })]
    sessionMetadata := [("s1", { lastAccess := 0, createdAt := 0 })]
    sessionContexts := [("s1", some ctxA)]
    contextSwitchLocks := [] }

/-- The same session while a context switch for it is in flight. -/
def lockedState : ServerState :=
  { transports := [("s1", { closeFails := false })]
    servers := [("s1", { instanceContext := some ctxA })]
    sessionMetadata := [("s1", { lastAccess := 0, createdAt := 0 })]
    sessionContexts := [("s1", some ctxA)]
    contextSwitchLocks := ["s1"] }

/-! ## Verified properties -/

theorem alookup_aset_self (m : List (SessionId × α)) (k : SessionId) (v : α) :
    alookup (aset m k v) k = some v := by
  induction m with
  | nil => simp [aset, alookup]
  | cons e rest ih =>
      obtain ⟨k', v'⟩ := e
      by_cases h : k' = k <;> simp [aset, alookup, h, ih]

theorem alookup_aset_ne (m : List (SessionId × α)) (k k' : SessionId) (v : α)
    (h : k ≠ k') : alookup (aset m k v) k' = alookup m k' := by
  induction m with
  | nil => simp [aset, alookup, h]
  | cons e rest ih =>
      obtain ⟨k₀, v₀⟩ := e
      by_cases h0 : k₀ = k
      · subst h0
        simp [aset, alookup, h]
      · have h' : ¬(k' = k) := fun he => h he.symm
        by_cases h1 : k₀ = k' <;> simp [aset, alookup, h0, h1, h', ih]

theorem alookup_aerase_self (m : List (SessionId × α)) (k : SessionId) :
    alookup (aerase m k) k = none := by
  induction m with
  | nil => simp [aerase, alookup]
  | cons e rest ih =>
      obtain ⟨k', v'⟩ := e
      by_cases h : k' = k <;> simp [aerase, alookup, h, ih]

theorem alookup_aerase_ne (m : List (SessionId × α)) (k k' : SessionId)
    (h : k ≠ k') : alookup (aerase m k) k' = alookup m k' := by
  induction m with
  | nil => simp [aerase, alookup]
  | cons e rest ih =>
      obtain ⟨k₀, v₀⟩ := e
      by_cases h0 : k₀ = k
      · subst h0
        simp [aerase, alookup, h, ih]
      · have h' : ¬(k' = k) := fun he => h he.symm
        by_cases h1 : k₀ = k' <;> simp [aerase, alookup, h0, h1, h', ih]

theorem aerase_of_alookup_none (m : List (SessionId × α)) (k : SessionId)
    (h : alookup m k = none) : aerase m k = m := by
  induction m with
  | nil => simp [aerase]
  | cons e rest ih =>
      obtain ⟨k', v'⟩ := e
      by_cases h0 : k' = k
      · simp [alookup, h0] at h
      · simp [alookup, h0] at h
        simp [aerase, h0, ih h]

theorem aerase_sublist (m : List (SessionId × α)) (k : SessionId) :
    (aerase m k).Sublist m := by
  induction m with
  | nil => simp [aerase]
  | cons e rest ih =>
      obtain ⟨k', v'⟩ := e
      by_cases h : k' = k
      · rw [aerase, if_pos h]
        exact List.Sublist.cons (k', v') ih
      · rw [aerase, if_neg h]
        exact List.Sublist.cons₂ (k', v') ih

theorem length_aerase_le (m : List (SessionId × α)) (k : SessionId) :
    (aerase m k).length ≤ m.length :=
  (aerase_sublist m k).length_le

theorem length_aset_le (m : List (SessionId × α)) (k : SessionId) (v : α) :
    (aset m k v).length ≤ m.length + 1 := by
  induction m with
  | nil => simp [aset]
  | cons e rest ih =>
      obtain ⟨k', v'⟩ := e
      by_cases h : k' = k
      · simp [aset, h]
      · simp [aset, h]
        omega

theorem mem_keys_aset (m : List (SessionId × α)) (k x : SessionId) (v : α) :
    x ∈ (aset m k v).map Prod.fst ↔ x ∈ m.map Prod.fst ∨ x = k := by
  induction m with
  | nil => simp [aset]
  | cons e rest ih =>
      obtain ⟨k', v'⟩ := e
      by_cases h : k' = k
      · subst h
        simp [aset]
        tauto
      · simp [aset, h, ih]
        tauto

theorem keys_nodup_aset (m : List (SessionId × α)) (k : SessionId) (v : α)
    (h : (m.map Prod.fst).Nodup) : ((aset m k v).map Prod.fst).Nodup := by
  induction m with
  | nil => simp [aset]
  | cons e rest ih =>
      obtain ⟨k', v'⟩ := e
      rw [List.map_cons, List.nodup_cons] at h
      by_cases h0 : k' = k
      · subst h0
        rw [aset, if_pos rfl, List.map_cons, List.nodup_cons]
        exact h
      · rw [aset, if_neg h0, List.map_cons, List.nodup_cons]
        refine ⟨?_, ih h.2⟩
        rw [mem_keys_aset]
        rintro (hc | hc)
        · exact h.1 hc
        · exact h0 hc

theorem keys_nodup_aerase (m : List (SessionId × α)) (k : SessionId)
    (h : (m.map Prod.fst).Nodup) : ((aerase m k).map Prod.fst).Nodup :=
  (((aerase_sublist m k).map Prod.fst).nodup h)

theorem alookup_some_mem (m : List (SessionId × α)) (k : SessionId) (v : α)
    (h : alookup m k = some v) : (k, v) ∈ m := by
  induction m with
  | nil => simp [alookup] at h
  | cons e rest ih =>
      obtain ⟨k', v'⟩ := e
      by_cases h0 : k' = k
      · subst h0
        simp [alookup] at h
        simp [h]
      · simp [alookup, h0] at h
        simp [ih h]

theorem mem_alookup_of_keys_nodup (m : List (SessionId × α)) (k : SessionId)
    (v : α) (hnd : (m.map Prod.fst).Nodup) (h : (k, v) ∈ m) :
    alookup m k = some v := by
  induction m with
  | nil => simp at h
  | cons e rest ih =>
      obtain ⟨k', v'⟩ := e
      simp at hnd h
      rcases h with ⟨h1, h2⟩ | h
      · subst h1
        subst h2
        simp [alookup]
      · have hk : k' ≠ k := by
          intro he
          subst he
          exact hnd.1 v (by simpa using h)
        simp [alookup, hk, ih hnd.2 h]

theorem alookup_filter_of_key (m : List (SessionId × α))
    (p : SessionId × α → Bool) (k : SessionId)
    (hp : ∀ v, p (k, v) = true) :
    alookup (m.filter p) k = alookup m k := by
  induction m with
  | nil => simp [alookup]
  | cons e rest ih =>
      obtain ⟨k', v'⟩ := e
      by_cases h0 : k' = k
      · subst h0
        simp [List.filter_cons, hp v', alookup, ih]
      · by_cases h1 : p (k', v') <;>
          simp [List.filter_cons, h1, alookup, h0, ih]

/-! ## Preservation lemmas -/

theorem updateSessionAccess_transports (s : ServerState) (sid : SessionId)
    (now : Nat) : (updateSessionAccess s sid now).transports = s.transports := by
  unfold updateSessionAccess
  cases alookup s.sessionMetadata sid <;> simp

theorem performContextSwitch_transports (s : ServerState) (sid : SessionId)
    (ctx : InstanceContext) :
    (performContextSwitch s sid ctx).transports = s.transports := by
  unfold performContextSwitch
  by_cases h : effectiveContext s sid = some ctx
  · simp [h]
  · cases hs : alookup s.servers sid <;> simp [h, hs]

theorem switchSessionContext_transports (s : ServerState) (sid : SessionId)
    (ctx : InstanceContext) :
    (switchSessionContext s sid ctx).transports = s.transports := by
  unfold switchSessionContext
  by_cases h : sid ∈ s.contextSwitchLocks <;>
    simp [h, performContextSwitch_transports]

theorem performContextSwitch_metadata (s : ServerState) (sid : SessionId)
    (ctx : InstanceContext) :
    (performContextSwitch s sid ctx).sessionMetadata = s.sessionMetadata := by
  unfold performContextSwitch
  by_cases h : effectiveContext s sid = some ctx
  · simp [h]
  · cases hs : alookup s.servers sid <;> simp [h, hs]

theorem switchSessionContext_metadata (s : ServerState) (sid : SessionId)
    (ctx : InstanceContext) :
    (switchSessionContext s sid ctx).sessionMetadata = s.sessionMetadata := by
  unfold switchSessionContext
  by_cases h : sid ∈ s.contextSwitchLocks <;>
    simp [h, performContextSwitch_metadata]

/-- The transports map after `handleRequest` is either untouched, or — only
when admission succeeded — the old map with the one chosen id bound. -/
theorem handleRequest_transports (cfg : EnvConfig) (now : Nat) (uuid : String)
    (closeFails : Bool) (r : HttpRequest) (s : ServerState) :
    (handleRequest cfg now uuid closeFails r s).2.transports = s.transports ∨
    (canCreateSession s = true ∧
      (handleRequest cfg now uuid closeFails r s).2.transports
        = aset s.transports
            (sessionIdToUse cfg r.headerSessionId r.instanceContext uuid)
            { closeFails := closeFails }) := by
  unfold handleRequest
  by_cases hi : r.isInitialize
  · by_cases hc : canCreateSession s
    · right
      refine ⟨hc, ?_⟩
      simp [hi, hc]
    · left
      simp [hi, canCreateSession] at hc ⊢
      simp [hc]
  · left
    cases hb : strTruthy r.headerSessionId with
    | false => simp [hi, hb]
    | true =>
        cases ha : (alookup s.transports (r.headerSessionId.getD "")).isSome with
        | false => simp [hi, hb, ha]
        | true =>
            by_cases h3 : isValidSessionId (r.headerSessionId.getD "")
            · simp only [hi, hb, ha, Bool.and_self, if_true, if_false,
                Bool.false_eq_true, Bool.not_true, h3,
                updateSessionAccess_transports]
              cases hmt : (cfg.enableMultiTenant
                  && (cfg.sessionStrategy == "shared")) with
              | false => simp
              | true =>
                  cases r.instanceContext <;>
                    simp [switchSessionContext_transports]
            · simp [hi, hb, ha, h3]

theorem removeSession_transports_length_le (s : ServerState)
    (sid : SessionId) (reason : String) :
    (removeSession s sid reason).transports.length ≤ s.transports.length := by
  unfold removeSession
  cases h : alookup s.transports sid with
  | none => simp
  | some t =>
      by_cases hf : t.closeFails <;> simp [hf, length_aerase_le]

theorem foldl_remove_transports_length_le (L : List SessionId)
    (s : ServerState) (reason : String) :
    ((L.foldl (fun st sid => removeSession st sid reason) s).transports.length)
      ≤ s.transports.length := by
  induction L generalizing s with
  | nil => simp
  | cons a L ih =>
      exact le_trans (ih (removeSession s a reason))
        (removeSession_transports_length_le s a reason)

theorem cleanup_transports_length_le (s : ServerState) (now : Nat) :
    (cleanupExpiredSessions s now).transports.length
      ≤ s.transports.length := by
  unfold cleanupExpiredSessions
  exact foldl_remove_transports_length_le _ _ _

/-- One event never pushes the number of live transports above the ceiling. -/
theorem stepEvent_count_le (cfg : EnvConfig) (s : ServerState) (e : Event)
    (h : getActiveSessionCount s ≤ MAX_SESSIONS) :
    getActiveSessionCount (stepEvent cfg s e) ≤ MAX_SESSIONS := by
  cases e with
  | request now uuid closeFails r =>
      rcases handleRequest_transports cfg now uuid closeFails r s with
        heq | ⟨hc, heq⟩
      · simpa [stepEvent, getActiveSessionCount, heq] using h
      · have hlt : s.transports.length < MAX_SESSIONS := by
          simpa [canCreateSession, getActiveSessionCount] using hc
        have := length_aset_le s.transports
          (sessionIdToUse cfg r.headerSessionId r.instanceContext uuid)
          { closeFails := closeFails }
        simp only [stepEvent, getActiveSessionCount, heq]
        omega
  | sweep now =>
      exact le_trans (cleanup_transports_length_le s now) h
  | terminate sid reason =>
      exact le_trans (removeSession_transports_length_le s sid reason) h

/-- Generic invariant preservation along a `foldl`. -/
theorem foldl_preserves {α β : Type} {P : α → Prop} (f : α → β → α)
    (hf : ∀ a b, P a → P (f a b)) :
    ∀ (l : List β) (a : α), P a → P (l.foldl f a) := by
  intro l
  induction l with
  | nil => intro a ha; simpa using ha
  | cons b l ih =>
      intro a ha
      simpa using ih (f a b) (hf a b ha)

theorem performContextSwitch_servers (s : ServerState) (sid : SessionId)
    (ctx : InstanceContext) :
    (performContextSwitch s sid ctx).servers = s.servers ∨
    ∃ v, (performContextSwitch s sid ctx).servers = aset s.servers sid v := by
  unfold performContextSwitch
  by_cases h : effectiveContext s sid = some ctx
  · left
    simp [h]
  · cases hs : alookup s.servers sid with
    | none =>
        left
        simp [h, hs]
    | some srv =>
        right
        exact ⟨{ srv with instanceContext := some ctx }, by simp [h, hs]⟩

theorem performContextSwitch_contexts (s : ServerState) (sid : SessionId)
    (ctx : InstanceContext) :
    (performContextSwitch s sid ctx).sessionContexts = s.sessionContexts ∨
    (performContextSwitch s sid ctx).sessionContexts
      = aset s.sessionContexts sid (some ctx) := by
  unfold performContextSwitch
  by_cases h : effectiveContext s sid = some ctx
  · left
    simp [h]
  · right
    cases hs : alookup s.servers sid <;> simp [h, hs]

theorem switchSessionContext_servers (s : ServerState) (sid : SessionId)
    (ctx : InstanceContext) :
    (switchSessionContext s sid ctx).servers = s.servers ∨
    ∃ v, (switchSessionContext s sid ctx).servers = aset s.servers sid v := by
  unfold switchSessionContext
  by_cases h : sid ∈ s.contextSwitchLocks
  · left
    simp [h]
  · simpa [h] using performContextSwitch_servers s sid ctx

theorem switchSessionContext_contexts (s : ServerState) (sid : SessionId)
    (ctx : InstanceContext) :
    (switchSessionContext s sid ctx).sessionContexts = s.sessionContexts ∨
    (switchSessionContext s sid ctx).sessionContexts
      = aset s.sessionContexts sid (some ctx) := by
  unfold switchSessionContext
  by_cases h : sid ∈ s.contextSwitchLocks
  · left
    simp [h]
  · simpa [h] using performContextSwitch_contexts s sid ctx

theorem updateSessionAccess_metadata (s : ServerState) (sid : SessionId)
    (now : Nat) :
    (updateSessionAccess s sid now).sessionMetadata = s.sessionMetadata ∨
    ∃ v, (updateSessionAccess s sid now).sessionMetadata
      = aset s.sessionMetadata sid v := by
  unfold updateSessionAccess
  cases alookup s.sessionMetadata sid with
  | none =>
      left
      simp
  | some m =>
      right
      exact ⟨{ lastAccess := now, createdAt := m.createdAt }, by simp⟩

theorem updateSessionAccess_servers (s : ServerState) (sid : SessionId)
    (now : Nat) : (updateSessionAccess s sid now).servers = s.servers := by
  unfold updateSessionAccess
  cases alookup s.sessionMetadata sid <;> simp

theorem updateSessionAccess_contexts (s : ServerState) (sid : SessionId)
    (now : Nat) :
    (updateSessionAccess s sid now).sessionContexts = s.sessionContexts := by
  unfold updateSessionAccess
  cases alookup s.sessionMetadata sid <;> simp

theorem removeSession_WF (s : ServerState) (sid : SessionId) (reason : String)
    (h : WF s) : WF (removeSession s sid reason) := by
  obtain ⟨h1, h2, h3, h4⟩ := h
  unfold removeSession
  cases ht : alookup s.transports sid with
  | none =>
      exact ⟨h1, keys_nodup_aerase _ _ h2, keys_nodup_aerase _ _ h3,
        keys_nodup_aerase _ _ h4⟩
  | some t =>
      by_cases hf : t.closeFails
      · simpa [hf] using ⟨h1, h2, h3, h4⟩
      · simp only [hf, Bool.false_eq_true, if_false]
        exact ⟨keys_nodup_aerase _ _ h1, keys_nodup_aerase _ _ h2,
          keys_nodup_aerase _ _ h3, keys_nodup_aerase _ _ h4⟩

theorem switchSessionContext_WF (s : ServerState) (sid : SessionId)
    (ctx : InstanceContext) (h : WF s) :
    WF (switchSessionContext s sid ctx) := by
  obtain ⟨h1, h2, h3, h4⟩ := h
  refine ⟨?_, ?_, ?_, ?_⟩
  · rw [switchSessionContext_transports]
    exact h1
  · rcases switchSessionContext_servers s sid ctx with he | ⟨v, he⟩ <;>
      rw [he]
    · exact h2
    · exact keys_nodup_aset _ _ _ h2
  · rw [switchSessionContext_metadata]
    exact h3
  · rcases switchSessionContext_contexts s sid ctx with he | he <;> rw [he]
    · exact h4
    · exact keys_nodup_aset _ _ _ h4

theorem updateSessionAccess_WF (s : ServerState) (sid : SessionId) (now : Nat)
    (h : WF s) : WF (updateSessionAccess s sid now) := by
  obtain ⟨h1, h2, h3, h4⟩ := h
  refine ⟨?_, ?_, ?_, ?_⟩
  · rw [updateSessionAccess_transports]
    exact h1
  · rw [updateSessionAccess_servers]
    exact h2
  · rcases updateSessionAccess_metadata s sid now with he | ⟨v, he⟩ <;> rw [he]
    · exact h3
    · exact keys_nodup_aset _ _ _ h3
  · rw [updateSessionAccess_contexts]
    exact h4

theorem handleRequest_WF (cfg : EnvConfig) (now : Nat) (uuid : String)
    (closeFails : Bool) (r : HttpRequest) (s : ServerState) (h : WF s) :
    WF (handleRequest cfg now uuid closeFails r s).2 := by
  obtain ⟨h1, h2, h3, h4⟩ := h
  unfold handleRequest
  by_cases hi : r.isInitialize
  · by_cases hc : canCreateSession s
    · simp only [hi, hc, Bool.not_true, Bool.false_eq_true, if_false, if_true]
      exact ⟨keys_nodup_aset _ _ _ h1, keys_nodup_aset _ _ _ h2,
        keys_nodup_aset _ _ _ h3, keys_nodup_aset _ _ _ h4⟩
    · simp only [canCreateSession] at hc
      simp only [hi, if_true, canCreateSession, decide_eq_true_eq]
      simp [hc]
      exact ⟨h1, h2, h3, h4⟩
  · cases hb : strTruthy r.headerSessionId with
    | false =>
        simp [hi, hb]
        exact ⟨h1, h2, h3, h4⟩
    | true =>
        cases ha : (alookup s.transports (r.headerSessionId.getD "")).isSome with
        | false =>
            simp [hi, hb, ha]
            exact ⟨h1, h2, h3, h4⟩
        | true =>
            by_cases h3v : isValidSessionId (r.headerSessionId.getD "")
            · simp only [hi, hb, ha, Bool.and_self, if_true, if_false,
                Bool.false_eq_true, Bool.not_true, h3v]
              refine updateSessionAccess_WF _ _ _ ?_
              cases hmt : (cfg.enableMultiTenant
                  && (cfg.sessionStrategy == "shared")) with
              | false =>
                  simp
                  exact ⟨h1, h2, h3, h4⟩
              | true =>
                  cases r.instanceContext with
                  | none =>
                      simp
                      exact ⟨h1, h2, h3, h4⟩
                  | some ctx =>
                      simp
                      exact switchSessionContext_WF _ _ _ ⟨h1, h2, h3, h4⟩
            · simp [hi, hb, ha, h3v]
              exact ⟨h1, h2, h3, h4⟩

theorem cleanup_WF (s : ServerState) (now : Nat) (h : WF s) :
    WF (cleanupExpiredSessions s now) := by
  obtain ⟨h1, h2, h3, h4⟩ := h
  unfold cleanupExpiredSessions
  refine foldl_preserves _ (fun a b ha => removeSession_WF a b "expired" ha) _ _ ?_
  refine ⟨h1, h2, h3, ?_⟩
  exact ((List.filter_sublist _).map Prod.fst).nodup h4

theorem stepEvent_WF (cfg : EnvConfig) (s : ServerState) (e : Event)
    (h : WF s) : WF (stepEvent cfg s e) := by
  cases e with
  | request now uuid closeFails r => exact handleRequest_WF _ _ _ _ _ _ h
  | sweep now => exact cleanup_WF _ _ h
  | terminate sid reason => exact removeSession_WF s sid reason h

theorem runEvents_WF (cfg : EnvConfig) (es : List Event) :
    WF (runEvents cfg es) := by
  unfold runEvents
  refine foldl_preserves _ (fun a b ha => stepEvent_WF cfg a b ha) _ _ ?_
  exact ⟨List.nodup_nil, List.nodup_nil, List.nodup_nil, List.nodup_nil⟩

theorem runEvents_count_le (cfg : EnvConfig) (es : List Event) :
    getActiveSessionCount (runEvents cfg es) ≤ MAX_SESSIONS := by
  unfold runEvents
  refine foldl_preserves _ (fun a b ha => stepEvent_count_le cfg a b ha) _ _ ?_
  simp [initialState, getActiveSessionCount, MAX_SESSIONS]

/-! ## Lookup behaviour of removal -/

/-- Removal never touches entries of other sessions. -/
theorem removeSession_lookup_ne (s : ServerState) (sid : SessionId)
    (reason : String) (sid' : SessionId) (h : sid ≠ sid') :
    alookup (removeSession s sid reason).transports sid'
        = alookup s.transports sid' ∧
    alookup (removeSession s sid reason).servers sid'
        = alookup s.servers sid' ∧
    alookup (removeSession s sid reason).sessionMetadata sid'
        = alookup s.sessionMetadata sid' ∧
    alookup (removeSession s sid reason).sessionContexts sid'
        = alookup s.sessionContexts sid' := by
  unfold removeSession
  cases ht : alookup s.transports sid with
  | none =>
      simp [alookup_aerase_ne _ _ _ h]
  | some t =>
      by_cases hf : t.closeFails <;> simp [hf, alookup_aerase_ne _ _ _ h]

/-- When the owned transport's `close()` does not throw (or there is no
transport at all), removal deletes the session from all four maps. -/
theorem removeSession_removes (s : ServerState) (sid : SessionId)
    (reason : String)
    (hok : ∀ t, alookup s.transports sid = some t → t.closeFails = false) :
    alookup (removeSession s sid reason).transports sid = none ∧
    alookup (removeSession s sid reason).servers sid = none ∧
    alookup (removeSession s sid reason).sessionMetadata sid = none ∧
    alookup (removeSession s sid reason).sessionContexts sid = none := by
  unfold removeSession
  cases ht : alookup s.transports sid with
  | none =>
      simp [ht, alookup_aerase_self]
  | some t =>
      have := hok t ht
      simp [this, alookup_aerase_self]

theorem foldl_remove_lookup_not_mem (L : List SessionId) (s : ServerState)
    (reason : String) (sid : SessionId) (h : sid ∉ L) :
    alookup ((L.foldl (fun st x => removeSession st x reason) s).transports) sid
        = alookup s.transports sid ∧
    alookup ((L.foldl (fun st x => removeSession st x reason) s).servers) sid
        = alookup s.servers sid ∧
    alookup ((L.foldl (fun st x => removeSession st x reason) s).sessionMetadata) sid
        = alookup s.sessionMetadata sid ∧
    alookup ((L.foldl (fun st x => removeSession st x reason) s).sessionContexts) sid
        = alookup s.sessionContexts sid := by
  induction L generalizing s with
  | nil => simp
  | cons a L ih =>
      simp only [List.mem_cons, not_or] at h
      obtain ⟨ha, hL⟩ := h
      have hne : a ≠ sid := fun he => ha he.symm
      have h1 := removeSession_lookup_ne s a reason sid hne
      have h2 := ih (removeSession s a reason) hL
      simp only [List.foldl_cons]
      exact ⟨h2.1.trans h1.1, h2.2.1.trans h1.2.1,
        h2.2.2.1.trans h1.2.2.1, h2.2.2.2.trans h1.2.2.2⟩

theorem foldl_remove_removes (L : List SessionId) (s : ServerState)
    (reason : String) (sid : SessionId) (hnd : L.Nodup) (hmem : sid ∈ L)
    (hok : ∀ t, alookup s.transports sid = some t → t.closeFails = false) :
    alookup ((L.foldl (fun st x => removeSession st x reason) s).transports) sid
        = none ∧
    alookup ((L.foldl (fun st x => removeSession st x reason) s).servers) sid
        = none ∧
    alookup ((L.foldl (fun st x => removeSession st x reason) s).sessionMetadata) sid
        = none ∧
    alookup ((L.foldl (fun st x => removeSession st x reason) s).sessionContexts) sid
        = none := by
  induction L generalizing s with
  | nil => simp at hmem
  | cons a L ih =>
      rw [List.nodup_cons] at hnd
      simp only [List.foldl_cons]
      rcases List.mem_cons.mp hmem with he | hm
      · subst he
        have hrm := removeSession_removes s sid reason hok
        have hpres := foldl_remove_lookup_not_mem L
          (removeSession s sid reason) reason sid hnd.1
        exact ⟨hpres.1.trans hrm.1, hpres.2.1.trans hrm.2.1,
          hpres.2.2.1.trans hrm.2.2.1, hpres.2.2.2.trans hrm.2.2.2⟩
      · have hne : a ≠ sid := by
          intro he
          subst he
          exact hnd.1 hm
        have h1 := removeSession_lookup_ne s a reason sid hne
        refine ih (removeSession s a reason) hnd.2 hm ?_
        intro t ht
        exact hok t (h1.1 ▸ ht)

/-- A session that has already vanished from every map is untouched by
removal. -/
theorem removeSession_absent (s : ServerState) (sid : SessionId)
    (reason : String)
    (h1 : alookup s.transports sid = none)
    (h2 : alookup s.servers sid = none)
    (h3 : alookup s.sessionMetadata sid = none)
    (h4 : alookup s.sessionContexts sid = none) :
    removeSession s sid reason = s := by
  unfold removeSession
  simp [h1, aerase_of_alookup_none _ _ h2, aerase_of_alookup_none _ _ h3,
    aerase_of_alookup_none _ _ h4]

/-! ## Interleaving semantics for concurrent shared-mode context switches -/

theorem performContextSwitch_locks (s : ServerState) (sid : SessionId)
    (ctx : InstanceContext) :
    (performContextSwitch s sid ctx).contextSwitchLocks
      = s.contextSwitchLocks := by
  unfold performContextSwitch
  by_cases h : effectiveContext s sid = some ctx
  · simp [h]
  · cases hs : alookup s.servers sid <;> simp [h, hs]

/-- After a performed switch the stored context reads back as the requested
one (it is either freshly written or was already structurally equal). -/
theorem effectiveContext_performContextSwitch (s : ServerState)
    (sid : SessionId) (ctx : InstanceContext) :
    effectiveContext (performContextSwitch s sid ctx) sid = some ctx := by
  unfold performContextSwitch
  by_cases h : effectiveContext s sid = some ctx
  · rw [if_pos h]
    exact h
  · rw [if_neg h]
    cases hs : alookup s.servers sid <;>
      simp [hs, effectiveContext, alookup_aset_self]

theorem switchInvAux_symm (sid : SessionId) (c0 : Option InstanceContext)
    (X Y : InstanceContext) (s : ServerState) (p q : SwitchPC)
    (h : SwitchInvAux sid c0 X Y s p q) : SwitchInvAux sid c0 Y X s q p := by
  obtain ⟨h1, h2, h3, h4⟩ := h
  refine ⟨h1.trans or_comm, fun hx => h2 ⟨hx.2, hx.1⟩,
    fun hx => h3 ⟨hx.2, hx.1⟩, fun hx => Or.symm (h4 (Or.symm hx))⟩

theorem threadStep_ctx (sid : SessionId) (s : ServerState) (t : SwitchThread) :
    (threadStep sid s t).2.ctx = t.ctx := by
  cases hpc : t.pc <;>
    by_cases hm : sid ∈ s.contextSwitchLocks <;>
      simp [threadStep, hpc, hm]

theorem switchInvAux_step (sid : SessionId) (c0 : Option InstanceContext)
    (X Y : InstanceContext) (s : ServerState) (q : SwitchPC)
    (t : SwitchThread) (hctx : t.ctx = X)
    (h : SwitchInvAux sid c0 X Y s t.pc q) :
    SwitchInvAux sid c0 X Y (threadStep sid s t).1 (threadStep sid s t).2.pc
      q := by
  obtain ⟨h1, h2, h3, h4⟩ := h
  cases hpc : t.pc with
  | start =>
      rw [hpc] at h1 h2 h3 h4
      by_cases hm : sid ∈ s.contextSwitchLocks
      · have hq : q = SwitchPC.waitingOwn := by
          rcases h1.mp hm with hp | hq
          · exact absurd hp (by simp)
          · exact hq
        have hT : threadStep sid s t
            = (s, { t with pc := SwitchPC.waitingLock }) := by
          simp [threadStep, hpc, hm]
        rw [hT]
        refine ⟨?_, ?_, ?_, ?_⟩
        · simp [hq, hm]
        · simp
        · simp
        · intro hx
          exact h4 (Or.inr (by simp [hq]))
      · have hq : ¬(q = SwitchPC.waitingOwn) :=
          fun hq0 => hm (h1.mpr (Or.inr hq0))
        have hT : threadStep sid s t
            = ({ performContextSwitch s sid X with
                  contextSwitchLocks := sid :: s.contextSwitchLocks },
               { t with pc := SwitchPC.waitingOwn }) := by
          simp [threadStep, hpc, hm, hctx, performContextSwitch_locks]
        rw [hT]
        refine ⟨?_, ?_, ?_, ?_⟩
        · simp
        · simp [hq]
        · simp
        · intro hx
          left
          exact effectiveContext_performContextSwitch s sid X
  | waitingOwn =>
      rw [hpc] at h1 h2 h3 h4
      have hq : ¬(q = SwitchPC.waitingOwn) := fun hq0 => h2 ⟨rfl, hq0⟩
      have hT : threadStep sid s t
          = ({ s with contextSwitchLocks :=
                s.contextSwitchLocks.filter (fun x => decide (x ≠ sid)) },
             { t with pc := SwitchPC.done }) := by
        simp [threadStep, hpc]
      rw [hT]
      refine ⟨?_, ?_, ?_, ?_⟩
      · simp [hq]
      · simp
      · simp
      · intro hx
        exact h4 (Or.inl (by simp))
  | waitingLock =>
      rw [hpc] at h1 h2 h3 h4
      by_cases hm : sid ∈ s.contextSwitchLocks
      · have hT : threadStep sid s t = (s, t) := by
          simp [threadStep, hpc, hm]
        rw [hT]
        simp only [hpc]
        exact ⟨h1, h2, h3, h4⟩
      · have hq : ¬(q = SwitchPC.waitingOwn) :=
          fun hq0 => hm (h1.mpr (Or.inr hq0))
        have hT : threadStep sid s t
            = (s, { t with pc := SwitchPC.done }) := by
          simp [threadStep, hpc, hm]
        rw [hT]
        refine ⟨?_, ?_, ?_, ?_⟩
        · simp [hm, hq]
        · simp
        · simp
        · intro hx
          exact h4 (Or.inl (by simp))
  | done =>
      rw [hpc] at h1 h2 h3 h4
      have hT : threadStep sid s t = (s, t) := by
        simp [threadStep, hpc]
      rw [hT]
      simp only [hpc]
      exact ⟨h1, h2, h3, h4⟩

theorem switchInv_step (sid : SessionId) (c0 : Option InstanceContext)
    (A B : InstanceContext) (c : SwitchSys) (ch : Bool)
    (h : SwitchInv sid c0 A B c) : SwitchInv sid c0 A B (sysStep sid c ch) := by
  obtain ⟨hA, hB, haux⟩ := h
  cases ch with
  | true =>
      have h' := switchInvAux_step sid c0 A B c.st c.t2.pc c.t1 hA haux
      refine ⟨?_, ?_, ?_⟩
      · simp [sysStep, threadStep_ctx, hA]
      · simp [sysStep, hB]
      · simpa [sysStep] using h'
  | false =>
      have haux2 := switchInvAux_symm sid c0 A B c.st c.t1.pc c.t2.pc haux
      have h' := switchInvAux_step sid c0 B A c.st c.t1.pc c.t2 hB haux2
      have h2 := switchInvAux_symm sid c0 B A (threadStep sid c.st c.t2).1
        (threadStep sid c.st c.t2).2.pc c.t1.pc h'
      refine ⟨?_, ?_, ?_⟩
      · simp [sysStep, hA]
      · simp [sysStep, threadStep_ctx, hB]
      · simpa [sysStep] using h2

theorem switchInv_run (sid : SessionId) (c0 : Option InstanceContext)
    (A B : InstanceContext) (c : SwitchSys) (sched : List Bool)
    (h : SwitchInv sid c0 A B c) :
    SwitchInv sid c0 A B (sysRun sid c sched) := by
  unfold sysRun
  exact foldl_preserves _ (fun a b ha => switchInv_step sid c0 A B a b ha)
    sched c h

/-! ## The claims -/

/-- C1: over every event sequence handled from the fresh server, the number
of sessions in the registry (`activeCount`, the number of keys of the
transports map) never exceeds `MAX_SESSIONS = 100`; and an initialize
request arriving at a registry at (or beyond) capacity is answered with the
429 capacity error and leaves the registry state completely unchanged. -/
theorem claim1_session_capacity (cfg cfg' : EnvConfig) (es : List Event)
    (now : Nat) (uuid : String) (closeFails : Bool) (r : HttpRequest)
    (s : ServerState) (hinit : r.isInitialize = true)
    (hfull : MAX_SESSIONS ≤ getActiveSessionCount s) :
    getActiveSessionCount (runEvents cfg es) ≤ MAX_SESSIONS ∧
    (handleRequest cfg' now uuid closeFails r s).1 = HandleResult.capacityError ∧
    HandleResult.status (handleRequest cfg' now uuid closeFails r s).1 = 429 ∧
    (handleRequest cfg' now uuid closeFails r s).2 = s := by
  have hc : canCreateSession s = false := by
    unfold canCreateSession
    simp only [decide_eq_false_iff_not, not_lt]
    exact hfull
  refine ⟨runEvents_count_le cfg es, ?_, ?_, ?_⟩ <;>
    simp [handleRequest, hinit, hc, HandleResult.status]

theorem claim1_session_capacity_witness :
    getActiveSessionCount (runEvents cfgSingle []) ≤ MAX_SESSIONS ∧
    (handleRequest cfgSingle 0 "u1" false reqInit fullState).1
      = HandleResult.capacityError ∧
    HandleResult.status (handleRequest cfgSingle 0 "u1" false reqInit fullState).1
      = 429 ∧
    (handleRequest cfgSingle 0 "u1" false reqInit fullState).2 = fullState :=
  claim1_session_capacity cfgSingle cfgSingle [] 0 "u1" false reqInit fullState
    rfl (by simp [fullState, getActiveSessionCount, MAX_SESSIONS])

/-- C2: after every event sequence, in every deployment mode, the session
identifiers present in each registry map are pairwise distinct. -/
theorem claim2_session_ids_distinct (cfg : EnvConfig) (es : List Event) :
    ((runEvents cfg es).transports.map Prod.fst).Nodup ∧
    ((runEvents cfg es).servers.map Prod.fst).Nodup ∧
    ((runEvents cfg es).sessionMetadata.map Prod.fst).Nodup ∧
    ((runEvents cfg es).sessionContexts.map Prod.fst).Nodup :=
  runEvents_WF cfg es

/-- C3: a continuation request (not session-initializing) carrying a session
id that is not in the registry is answered with the 400 "Session not found
or expired" client error, and the registry state is completely unchanged —
no session is created on the caller's behalf. -/
theorem claim3_unknown_session_rejected (cfg : EnvConfig) (now : Nat)
    (uuid : String) (closeFails : Bool) (r : HttpRequest) (s : ServerState)
    (sid : String) (hinit : r.isInitialize = false)
    (hsid : r.headerSessionId = some sid) (hne : 0 < sid.length)
    (habs : alookup s.transports sid = none) :
    (handleRequest cfg now uuid closeFails r s).1
      = HandleResult.badRequest "Bad Request: Session not found or expired" ∧
    HandleResult.status (handleRequest cfg now uuid closeFails r s).1 = 400 ∧
    (handleRequest cfg now uuid closeFails r s).2 = s := by
  refine ⟨?_, ?_, ?_⟩ <;>
    simp [handleRequest, hinit, hsid, strTruthy, hne, habs, isValidSessionId,
      HandleResult.status]

theorem claim3_unknown_session_rejected_witness :
    (handleRequest cfgSingle 0 "u1" false
        { headerSessionId := some "does-not-exist", isInitialize := false,
          instanceContext := none } initialState).1
      = HandleResult.badRequest "Bad Request: Session not found or expired" ∧
    HandleResult.status (handleRequest cfgSingle 0 "u1" false
        { headerSessionId := some "does-not-exist", isInitialize := false,
          instanceContext := none } initialState).1 = 400 ∧
    (handleRequest cfgSingle 0 "u1" false
        { headerSessionId := some "does-not-exist", isInitialize := false,
          instanceContext := none } initialState).2 = initialState :=
  claim3_unknown_session_rejected cfgSingle 0 "u1" false
    { headerSessionId := some "does-not-exist", isInitialize := false,
      instanceContext := none } initialState "does-not-exist" rfl rfl
    (by decide) rfl

/-- Removal is idempotent in every case: a second call ever only sees what
the first call left behind, and either the id is fully gone (all deletions
are of absent keys) or the close failure made the first call a no-op too. -/
theorem removeSession_idem (s : ServerState) (sid : SessionId)
    (r1 r2 : String) :
    removeSession (removeSession s sid r1) sid r2 = removeSession s sid r1 := by
  cases ht : alookup s.transports sid with
  | none =>
      have h1 : alookup (removeSession s sid r1).transports sid = none := by
        unfold removeSession
        simp [ht]
      have h2 : alookup (removeSession s sid r1).servers sid = none := by
        unfold removeSession
        simp [ht, alookup_aerase_self]
      have h3 : alookup (removeSession s sid r1).sessionMetadata sid = none := by
        unfold removeSession
        simp [ht, alookup_aerase_self]
      have h4 : alookup (removeSession s sid r1).sessionContexts sid = none := by
        unfold removeSession
        simp [ht, alookup_aerase_self]
      exact removeSession_absent _ _ _ h1 h2 h3 h4
  | some t =>
      by_cases hf : t.closeFails
      · have he : removeSession s sid r1 = s := by
          unfold removeSession
          simp [ht, hf]
        rw [he]
        unfold removeSession
        simp [ht, hf]
      · have h1 : alookup (removeSession s sid r1).transports sid = none := by
          unfold removeSession
          simp [ht, hf, alookup_aerase_self]
        have h2 : alookup (removeSession s sid r1).servers sid = none := by
          unfold removeSession
          simp [ht, hf, alookup_aerase_self]
        have h3 : alookup (removeSession s sid r1).sessionMetadata sid = none := by
          unfold removeSession
          simp [ht, hf, alookup_aerase_self]
        have h4 : alookup (removeSession s sid r1).sessionContexts sid = none := by
          unfold removeSession
          simp [ht, hf, alookup_aerase_self]
        exact removeSession_absent _ _ _ h1 h2 h3 h4

/-- C4: `removeSession` is idempotent — on an id whose session is already
gone from every registry map it is a no-op returning the state unchanged
(and, being a total function into states, it never throws: the `catch`
swallows the only throwing step), and in general a redundant second call for
the same id (sweeper plus transport-error callback) leaves exactly the state
the first call produced. -/
theorem claim4_remove_idempotent (s : ServerState) (sid : SessionId)
    (reason : String)
    (h1 : alookup s.transports sid = none)
    (h2 : alookup s.servers sid = none)
    (h3 : alookup s.sessionMetadata sid = none)
    (h4 : alookup s.sessionContexts sid = none) :
    removeSession s sid reason = s ∧
    (∀ s' : ServerState, ∀ r1 r2 : String,
      removeSession (removeSession s' sid r1) sid r2
        = removeSession s' sid r1) :=
  ⟨removeSession_absent s sid reason h1 h2 h3 h4,
   fun s' r1 r2 => removeSession_idem s' sid r1 r2⟩

theorem claim4_remove_idempotent_witness :
    removeSession initialState "a" "expired" = initialState ∧
    removeSession (removeSession expState "a" "expired") "a" "transport_error"
      = removeSession expState "a" "expired" := by
  have h := claim4_remove_idempotent initialState "a" "expired" rfl rfl rfl rfl
  exact ⟨h.1, h.2 expState "expired" "transport_error"⟩

/-- C5: the code bug.  The `delete` statements of `removeSession` sit
*after* the `await transport.close()` inside the same `try`; when `close()`
throws, control jumps to the `catch` (which only logs) and none of the four
deletions run.  Demonstrated at the failing input: session `"a"` with a
throwing transport is still present in all four registry maps after
`removeSession` returns, contradicting the documented "deletes all
associated entries even when closing fails; the session is still considered
gone". -/
theorem claim5_close_failure_leaves_session :
    removeSession closeFailState "a" "manual_termination" = closeFailState ∧
    alookup closeFailState.transports "a" = some { closeFails := true } ∧
    alookup closeFailState.servers "a" = some { instanceContext := none } ∧
    alookup closeFailState.sessionMetadata "a"
      = some { lastAccess := 0, createdAt := 0 } ∧
    alookup closeFailState.sessionContexts "a" = some none := by
  refine ⟨?_, ?_, ?_, ?_, ?_⟩ <;> decide

/-- C6: `performContextSwitch` is a no-op when the requested context is
structurally equal to the stored one (neither the stored context nor the
handler's context reference changes — the state is returned untouched);
when they differ it replaces the stored context wholesale with the
requested one and overwrites the live handler's context reference, never
merging individual fields. -/
theorem claim6_context_switch_exact (s : ServerState) (sid : SessionId)
    (newContext : InstanceContext) :
    (effectiveContext s sid = some newContext →
      performContextSwitch s sid newContext = s) ∧
    (effectiveContext s sid ≠ some newContext →
      effectiveContext (performContextSwitch s sid newContext) sid
        = some newContext ∧
      alookup (performContextSwitch s sid newContext).sessionContexts sid
        = some (some newContext) ∧
      (∀ srv, alookup s.servers sid = some srv →
        alookup (performContextSwitch s sid newContext).servers sid
          = some { instanceContext := some newContext })) := by
  constructor
  · intro h
    unfold performContextSwitch
    rw [if_pos h]
  · intro h
    refine ⟨effectiveContext_performContextSwitch s sid newContext, ?_, ?_⟩
    · unfold performContextSwitch
      rw [if_neg h]
      cases hs : alookup s.servers sid <;>
        simp [hs, alookup_aset_self]
    · intro srv hsrv
      unfold performContextSwitch
      rw [if_neg h]
      simp [hsrv, alookup_aset_self]

theorem claim6_context_switch_exact_witness :
    performContextSwitch swState "s1" ctxA = swState ∧
    effectiveContext (performContextSwitch swState "s1" ctxB) "s1"
      = some ctxB ∧
    alookup (performContextSwitch swState "s1" ctxB).sessionContexts "s1"
      = some (some ctxB) ∧
    alookup (performContextSwitch swState "s1" ctxB).servers "s1"
      = some { instanceContext := some ctxB } := by
  have h1 := (claim6_context_switch_exact swState "s1" ctxA).1 (by decide)
  have h2 := (claim6_context_switch_exact swState "s1" ctxB).2 (by decide)
  exact ⟨h1, h2.1, h2.2.1,
    h2.2.2 { instanceContext := some ctxA } (by decide)⟩

/-- C7: two concurrent shared-mode requests switching one session to
contexts `A` and `B`: under every interleaving of the event-loop turns, once
both calls have completed the stored context is exactly `A` or exactly `B`
(each write is a wholesale replacement, so no field mixture can arise), and
at every intermediate point the externally observable stored context is the
initial one, `A`, or `B` — never a partial state. -/
theorem claim7_concurrent_switch_atomic (sid : SessionId)
    (A B : InstanceContext) (s0 : ServerState) (sched : List Bool)
    (c : SwitchSys) (hlock : sid ∉ s0.contextSwitchLocks)
    (hc : c = sysRun sid
      { st := s0, t1 := { pc := SwitchPC.start, ctx := A },
        t2 := { pc := SwitchPC.start, ctx := B } } sched) :
    (c.t1.pc = SwitchPC.done → c.t2.pc = SwitchPC.done →
      effectiveContext c.st sid = some A ∨
      effectiveContext c.st sid = some B) ∧
    (effectiveContext c.st sid = effectiveContext s0 sid ∨
      effectiveContext c.st sid = some A ∨
      effectiveContext c.st sid = some B) := by
  subst hc
  have h0 : SwitchInv sid (effectiveContext s0 sid) A B
      { st := s0, t1 := { pc := SwitchPC.start, ctx := A },
        t2 := { pc := SwitchPC.start, ctx := B } } := by
    refine ⟨rfl, rfl, ?_, ?_, ?_, ?_⟩
    · constructor
      · intro hm
        exact absurd hm hlock
      · rintro (h | h) <;> simp at h
    · rintro ⟨h, -⟩
      simp at h
    · intro _
      rfl
    · rintro (h | h) <;> simp at h
  have hI := switchInv_run sid (effectiveContext s0 sid) A B _ sched h0
  obtain ⟨hA, hB, h1, h2, h3, h4⟩ := hI
  constructor
  · intro hd1 hd2
    refine h4 (Or.inl ?_)
    rw [hd1]
    simp
  · by_cases hs : (sysRun sid
        { st := s0, t1 := { pc := SwitchPC.start, ctx := A },
          t2 := { pc := SwitchPC.start, ctx := B } } sched).t1.pc
          = SwitchPC.start ∧
        (sysRun sid
          { st := s0, t1 := { pc := SwitchPC.start, ctx := A },
            t2 := { pc := SwitchPC.start, ctx := B } } sched).t2.pc
            = SwitchPC.start
    · left
      exact h3 hs
    · right
      exact h4 (not_and_or.mp hs)

theorem claim7_concurrent_switch_atomic_witness :
    effectiveContext (sysRun "s1"
      { st := swState, t1 := { pc := SwitchPC.start, ctx := ctxA },
        t2 := { pc := SwitchPC.start, ctx := ctxB } }
      [true, true, false, false]).st "s1" = some ctxB ∧
    (((sysRun "s1"
        { st := swState, t1 := { pc := SwitchPC.start, ctx := ctxA },
          t2 := { pc := SwitchPC.start, ctx := ctxB } }
        [true, true, false, false]).t1.pc = SwitchPC.done →
      (sysRun "s1"
        { st := swState, t1 := { pc := SwitchPC.start, ctx := ctxA },
          t2 := { pc := SwitchPC.start, ctx := ctxB } }
        [true, true, false, false]).t2.pc = SwitchPC.done →
      effectiveContext (sysRun "s1"
        { st := swState, t1 := { pc := SwitchPC.start, ctx := ctxA },
          t2 := { pc := SwitchPC.start, ctx := ctxB } }
        [true, true, false, false]).st "s1" = some ctxA ∨
      effectiveContext (sysRun "s1"
        { st := swState, t1 := { pc := SwitchPC.start, ctx := ctxA },
          t2 := { pc := SwitchPC.start, ctx := ctxB } }
        [true, true, false, false]).st "s1" = some ctxB) ∧
     (effectiveContext (sysRun "s1"
        { st := swState, t1 := { pc := SwitchPC.start, ctx := ctxA },
          t2 := { pc := SwitchPC.start, ctx := ctxB } }
        [true, true, false, false]).st "s1" = effectiveContext swState "s1" ∨
      effectiveContext (sysRun "s1"
        { st := swState, t1 := { pc := SwitchPC.start, ctx := ctxA },
          t2 := { pc := SwitchPC.start, ctx := ctxB } }
        [true, true, false, false]).st "s1" = some ctxA ∨
      effectiveContext (sysRun "s1"
        { st := swState, t1 := { pc := SwitchPC.start, ctx := ctxA },
          t2 := { pc := SwitchPC.start, ctx := ctxB } }
        [true, true, false, false]).st "s1" = some ctxB)) := by
  refine ⟨by decide, ?_⟩
  exact claim7_concurrent_switch_atomic "s1" ctxA ctxB swState
    [true, true, false, false] _ (by decide) rfl

/-- C10: when a context switch is already in flight for a session (its id is
a key of `contextSwitchLocks`), a further `switchSessionContext` call merely
awaits it and returns: the state is unchanged, so the second caller's
requested context is never written to `sessionContexts` nor to the
handler. -/
theorem claim10_inflight_switch_discarded (s : ServerState) (sid : SessionId)
    (newContext : InstanceContext) (h : sid ∈ s.contextSwitchLocks) :
    switchSessionContext s sid newContext = s ∧
    alookup (switchSessionContext s sid newContext).sessionContexts sid
      = alookup s.sessionContexts sid ∧
    alookup (switchSessionContext s sid newContext).servers sid
      = alookup s.servers sid := by
  have he : switchSessionContext s sid newContext = s := by
    unfold switchSessionContext
    rw [if_pos h]
  exact ⟨he, by rw [he], by rw [he]⟩

theorem claim10_inflight_switch_discarded_witness :
    switchSessionContext lockedState "s1" ctxB = lockedState ∧
    alookup (switchSessionContext lockedState "s1" ctxB).sessionContexts "s1"
      = alookup lockedState.sessionContexts "s1" ∧
    alookup (switchSessionContext lockedState "s1" ctxB).servers "s1"
      = alookup lockedState.servers "s1" :=
  claim10_inflight_switch_discarded lockedState "s1" ctxB (by decide)

/-- C8 counterexample: a session expired long past the timeout whose
transport throws on `close()` survives one full `cleanupExpiredSessions`
run untouched (the sweeper calls `removeSession`, whose deletions are
skipped when `close()` throws), so the claim's "every expired session has
been removed" is false as stated. -/
theorem claim8_cleanup_counterexample :
    (sessionTimeout + 1) - 0 > sessionTimeout ∧
    cleanupExpiredSessions closeFailState (sessionTimeout + 1)
      = closeFailState ∧
    alookup (cleanupExpiredSessions closeFailState
        (sessionTimeout + 1)).transports "a" = some { closeFails := true } := by
  refine ⟨?_, ?_, ?_⟩ <;> decide

/-- C8 (amended): after one `cleanupExpiredSessions` run at time `now`,
every session whose `(now - lastAccess)` exceeds the idle timeout *and
whose transport close does not throw* is gone from all four registry maps,
and every session whose idle time does not exceed the timeout is still
present with all four entries unchanged. -/
theorem claim8_cleanup_amended (s : ServerState) (now : Nat)
    (sid : SessionId) (m : SessionMeta)
    (hnd : (s.sessionMetadata.map Prod.fst).Nodup)
    (hm : alookup s.sessionMetadata sid = some m) :
    (now - m.lastAccess > sessionTimeout →
      (∀ t, alookup s.transports sid = some t → t.closeFails = false) →
      alookup (cleanupExpiredSessions s now).transports sid = none ∧
      alookup (cleanupExpiredSessions s now).servers sid = none ∧
      alookup (cleanupExpiredSessions s now).sessionMetadata sid = none ∧
      alookup (cleanupExpiredSessions s now).sessionContexts sid = none) ∧
    (¬(now - m.lastAccess > sessionTimeout) →
      alookup (cleanupExpiredSessions s now).transports sid
        = alookup s.transports sid ∧
      alookup (cleanupExpiredSessions s now).servers sid
        = alookup s.servers sid ∧
      alookup (cleanupExpiredSessions s now).sessionMetadata sid
        = alookup s.sessionMetadata sid ∧
      alookup (cleanupExpiredSessions s now).sessionContexts sid
        = alookup s.sessionContexts sid) := by
  constructor
  · intro hexp hok
    have hmm : (sid, m) ∈ s.sessionMetadata := alookup_some_mem _ _ _ hm
    have hmemf : (sid, m) ∈ s.sessionMetadata.filter
        (fun e => decide (now - e.2.lastAccess > sessionTimeout)) :=
      List.mem_filter.mpr ⟨hmm, by simp [hexp]⟩
    have hmem : sid ∈ expiredIds s now := by
      unfold expiredIds
      exact List.mem_map_of_mem Prod.fst hmemf
    have hndE : (expiredIds s now).Nodup := by
      unfold expiredIds
      exact ((List.filter_sublist _).map Prod.fst).nodup hnd
    have hres := foldl_remove_removes (expiredIds s now)
      { s with sessionContexts := s.sessionContexts.filter (fun e => (alookup s.sessionMetadata e.1).isSome) }
      "expired" sid hndE hmem hok
    simp only [cleanupExpiredSessions]
    exact hres
  · intro hnexp
    have hnmem : sid ∉ expiredIds s now := by
      intro hc
      unfold expiredIds at hc
      rcases List.mem_map.mp hc with ⟨e, hmem', he⟩
      obtain ⟨sid', m'⟩ := e
      rcases List.mem_filter.mp hmem' with ⟨hmm, hdec⟩
      simp only at he
      subst he
      have hlk : alookup s.sessionMetadata sid' = some m' :=
        mem_alookup_of_keys_nodup _ _ _ hnd hmm
      rw [hm] at hlk
      injection hlk with hmm'
      subst hmm'
      simp only [decide_eq_true_eq] at hdec
      exact hnexp hdec
    have hctx : alookup (s.sessionContexts.filter
        (fun e => (alookup s.sessionMetadata e.1).isSome)) sid
          = alookup s.sessionContexts sid :=
      alookup_filter_of_key _ _ _ (fun v => by simp [hm])
    have hpres := foldl_remove_lookup_not_mem (expiredIds s now)
      { s with sessionContexts := s.sessionContexts.filter (fun e => (alookup s.sessionMetadata e.1).isSome) }
      "expired" sid hnmem
    simp only [cleanupExpiredSessions]
    exact ⟨hpres.1, hpres.2.1, hpres.2.2.1, hpres.2.2.2.trans hctx⟩

theorem claim8_cleanup_amended_witness :
    alookup (cleanupExpiredSessions expState (sessionTimeout + 1)).transports
      "a" = none ∧
    alookup (cleanupExpiredSessions expState (sessionTimeout + 1)).servers
      "a" = none ∧
    alookup (cleanupExpiredSessions expState
      (sessionTimeout + 1)).sessionMetadata "a" = none ∧
    alookup (cleanupExpiredSessions expState
      (sessionTimeout + 1)).sessionContexts "a" = none ∧
    alookup (cleanupExpiredSessions swState 5).transports "s1"
      = alookup swState.transports "s1" ∧
    alookup (cleanupExpiredSessions swState 5).sessionMetadata "s1"
      = alookup swState.sessionMetadata "s1" := by
  have hok : ∀ t, alookup expState.transports "a" = some t →
      t.closeFails = false := by
    intro t ht
    have hv : alookup expState.transports "a"
        = some { closeFails := false } := by decide
    rw [hv] at ht
    injection ht with h
    rw [← h]
  have h1 := (claim8_cleanup_amended expState (sessionTimeout + 1) "a"
    { lastAccess := 0, createdAt := 0 } (by decide) (by decide)).1
    (by decide) hok
  have h2 := (claim8_cleanup_amended swState 5 "s1"
    { lastAccess := 0, createdAt := 0 } (by decide) (by decide)).2 (by decide)
  exact ⟨h1.1, h1.2.1, h1.2.2.1, h1.2.2.2, h2.1, h2.2.2.1⟩

/-- C9 counterexample: two sessions are created over the server's life and
one is then removed; `getSessionMetrics` reports `totalSessions = 1`, not
the 2 ever created — it merely counts the current metadata map.  And with no
sweep run in between, querying the metrics at times 5 and 9 returns
`lastCleanup = 5` and `9` respectively: `lastCleanup` is `new Date()` — the
query time — not the time of the last sweep. -/
theorem claim9_metrics_counterexample :
    (handleRequest cfgSingle 0 "u1" false reqInit initialState).1
      = HandleResult.created "u1" ∧
    (handleRequest cfgSingle 1 "u2" false reqInit
      (handleRequest cfgSingle 0 "u1" false reqInit initialState).2).1
      = HandleResult.created "u2" ∧
    (getSessionMetrics (removeSession
      (handleRequest cfgSingle 1 "u2" false reqInit
        (handleRequest cfgSingle 0 "u1" false reqInit initialState).2).2
      "u1" "manual_termination") 7).totalSessions = 1 ∧
    (getSessionMetrics swState 5).lastCleanup = 5 ∧
    (getSessionMetrics swState 9).lastCleanup = 9 := by
  refine ⟨?_, ?_, ?_, ?_, ?_⟩ <;> decide

/-- C9 (amended): `getSessionMetrics` returns the number of sessions
currently present in the metadata map (not the total ever created) as
`totalSessions`, the current number of live transports (`activeCount`) as
`activeSessions`, the number of sessions currently expired but not yet
swept — exactly the sweeper's hit list — as `expiredSessions`, and the
current query time (not the last sweep time) as `lastCleanup`. -/
theorem claim9_metrics_amended (s : ServerState) (now : Nat) :
    (getSessionMetrics s now).totalSessions = s.sessionMetadata.length ∧
    (getSessionMetrics s now).activeSessions = getActiveSessionCount s ∧
    (getSessionMetrics s now).expiredSessions = (expiredIds s now).length ∧
    (getSessionMetrics s now).lastCleanup = now := by
  refine ⟨rfl, rfl, ?_, rfl⟩
  simp [getSessionMetrics, expiredIds]
